import Mathlib

/-!
# Verification of voxelmorph's tensorflow model_io module

A shallow embedding of `src/voxelmorph/tensorflow_backend/model_io.py`:
the `store_config_args` decorator, which records the arguments of a
constructor call into `self.config`, and the `LoadableModel` base class
with its `__init__` guard, `get_config`, `from_config` and `load`
operations.  Python dictionaries are modelled as insertion-ordered
association lists with unique keys; Python attribute access, `h5py`,
`json` and `keras` collaborators are modelled explicitly or passed in
as parameters of the operations that call them.
-/

/-- A Python runtime value: `None`, booleans, integers, strings,
lists and (string-keyed) dictionaries. -/
inductive Value where
  | vnone : Value
  | vbool : Bool → Value
  | vint : Int → Value
  | vstr : String → Value
  | vlist : List Value → Value
  | vdict : List (String × Value) → Value

/-- A Python dict with string keys, modelled as an insertion-ordered
association list (unique keys are maintained by `dictSet`). -/
abbrev Dict := List (String × Value)

/-- `d[k] = v` on a Python dict: if `k` is already a key its value is
replaced in place, otherwise the pair is appended at the end. -/
def dictSet (d : Dict) (k : String) (v : Value) : Dict :=
  if d.any (fun p => p.1 = k) then
    d.map (fun p => if p.1 = k then (k, v) else p)
  else
    d ++ [(k, v)]

/-- `d.get(k)` on a Python dict: the value of the first pair whose key
is `k`, if any. -/
def dictGet (d : Dict) (k : String) : Option Value :=
  (d.find? (fun p => p.1 = k)).map Prod.snd

/-- The value associated with the LAST occurrence of a key in an
association list.  Folding `dictSet` over a list of pairs makes the
last occurrence win, so this is the natural specification device. -/
def lookupLast : List (String × Value) → String → Option Value
  | [], _ => none
  | p :: t, k =>
    match lookupLast t k with
    | some v => some v
    | none => if p.1 = k then some p.2 else none

/-- Left-biased choice on options (`a` if present, else `b`). -/
def oOr (a b : Option Value) : Option Value :=
  match a with
  | some v => some v
  | none => b

/-- The introspected signature of a Python constructor, as returned by
`inspect.getargspec(func)` at decoration time (model_io.py line 15):
the ordered parameter names (`attrs`, the implicit instance parameter
included), the names of the variadic parameters (unused by the
wrapper), and the default values aligned with the trailing parameters.
`inspect.getargspec` guarantees `defaults.length ≤ attrs.length`. -/
structure ArgSpec where
  attrs : List String
  varargs : Option String := none
  varkw : Option String := none
  defaults : List Value := []

/-- The dictionary that `store_config_args.wrapper` (model_io.py lines
19–33) leaves in `self.config` for a call with positional arguments
`args` and keyword arguments `kwargs`: starting from `{}`, first every
trailing default (`zip(reversed(attrs), reversed(defaults))`), then the
positional arguments (`zip(attrs[1:], args)`), then the keyword
arguments, each pass overriding the previous ones. -/
def buildConfig (attrs : List String) (defaults : List Value)
    (args : List Value) (kwargs : List (String × Value)) : Dict :=
  let c0 : Dict := []
  let c1 := (attrs.reverse.zip defaults.reverse).foldl (fun c p => dictSet c p.1 p.2) c0
  let c2 := ((attrs.drop 1).zip args).foldl (fun c p => dictSet c p.1 p.2) c1
  kwargs.foldl (fun c p => dictSet c p.1 p.2) c2

/-- A Python object: its attribute dictionary (`self.__dict__`).  The
`config` attribute written by the wrapper lives here like any other. -/
abbrev Attrs := Dict

/-- The body of the original (undecorated) constructor: it receives the
instance and the original arguments, and produces the updated instance
together with its return value. -/
abbrev InitFunc := Attrs → List Value → List (String × Value) → Attrs × Value

/-- `store_config_args.wrapper` (model_io.py lines 18–35): store the
config dictionary built from the call's arguments into `self.config`,
then invoke the original constructor with the original arguments
unchanged and return its result. -/
def wrapper (spec : ArgSpec) (func : InitFunc)
    (self : Attrs) (args : List Value) (kwargs : List (String × Value)) : Attrs × Value :=
  let self1 := dictSet self "config" (Value.vdict (buildConfig spec.attrs spec.defaults args kwargs))
  func self1 args kwargs

/-- `store_config_args` (model_io.py lines 8–36): introspect the
signature at decoration time — if `inspect.getargspec` fails the
exception propagates and no wrapper is produced — and otherwise return
the wrapped constructor. -/
def store_config_args (introspect : Except String ArgSpec) (func : InitFunc) :
    Except String (Attrs → List Value → List (String × Value) → Attrs × Value) :=
  match introspect with
  | Except.error e => Except.error e
  | Except.ok spec => Except.ok (wrapper spec func)

/-- The message of the RuntimeError raised by `LoadableModel.__init__`
when the instance carries no `config` attribute. -/
def configErrorMsg : String :=
  "models that inherit from LoadableModel must decorate the constructor with @store_config_args"

/-- `LoadableModel.__init__` (model_io.py lines 55–58): raise a
RuntimeError if the instance has no `config` attribute, otherwise call
`super().__init__(*args, **kwargs)` (the keras base constructor,
abstracted as `superInit`) with the original arguments. -/
def LoadableModel_init
    (superInit : Attrs → List Value → List (String × Value) → Except String Attrs)
    (self : Attrs) (args : List Value) (kwargs : List (String × Value)) :
    Except String Attrs :=
  if (dictGet self "config").isSome then superInit self args kwargs
  else Except.error configErrorMsg

/-- `LoadableModel.get_config` (model_io.py lines 60–65): return
`self.config`, i.e. the `config` attribute of the instance. -/
def get_config (self : Attrs) : Option Value :=
  dictGet self "config"

/-- `LoadableModel.from_config` (model_io.py lines 67–72): `cls(**config)`.
The concrete subclass constructor is abstracted as `ctor`, taking the
keyword-argument dictionary of the call; `customObjects` is accepted
and ignored, exactly as in the source. -/
def from_config (ctor : List (String × Value) → Attrs)
    (config : List (String × Value)) (customObjects : Option Value) : Attrs :=
  ctor config

/-- `cls(**kwargs)` for a class whose `__init__` is `wrapper spec func`:
a fresh object (empty attribute dictionary) is created and the wrapped
constructor runs on it; the constructed object is returned. -/
def newDecorated (spec : ArgSpec) (func : InitFunc) : List (String × Value) → Attrs :=
  fun kwargs => (wrapper spec func [] [] kwargs).1

/-- Observable file-system and framework actions performed by
`LoadableModel.load`, in the order they happen. -/
inductive Event where
  | openFile : String → Event
  | readAttr : String → String → Event
  | closeFile : String → Event
  | construct : List (String × Value) → Event
  | loadWeights : String → Bool → Event

/-- The exceptions that `LoadableModel.load` can let escape. -/
inductive PyError where
  | ioError : String → PyError
  | keyError : String → PyError
  | unicodeError : String → PyError
  | jsonError : String → PyError
  | typeError : String → PyError

/-- An HDF5 container as far as `load` looks at it: its top-level
attributes, each holding a raw byte string. -/
structure H5File where
  fileAttrs : List (String × String)

/-- Raw attribute lookup on an `H5File`. -/
def attrGet (l : List (String × String)) (k : String) : Option String :=
  (l.find? (fun p => p.1 = k)).map Prod.snd

/-- The external collaborators `LoadableModel.load` delegates to:
the file system as seen through `h5py.File(path, mode=r)`, UTF-8
decoding of a byte string, `json.loads`, the concrete subclass
constructor `cls(**config)`, and `model.load_weights(path, by_name)`. -/
structure LoadEnv where
  fs : String → Option H5File
  decodeUtf8 : String → Except String String
  jsonParse : String → Except String Value
  ctor : List (String × Value) → Attrs
  loadWeightsFn : Attrs → String → Bool → Attrs

/-- `LoadableModel.load` (model_io.py lines 74–86), with an explicit
event trace.  Inside `with h5py.File(path, mode=r) as f:` the config
blob is read (`f.attrs[model_config]`), UTF-8-decoded, JSON-parsed and
subscripted with `config`; the `with` block closes the file on every
exit path, normal or exceptional.  Only then is `cls(**config)` run and
`model.load_weights(path, by_name=by_name)` called, and the model
returned.  Exceptions are modelled as `Except.error` results. -/
def load (env : LoadEnv) (path : String) (byName : Bool) :
    Except PyError Attrs × List Event :=
  match env.fs path with
  | none => (Except.error (PyError.ioError path), [])
  | some f =>
    match attrGet f.fileAttrs "model_config" with
    | none =>
        (Except.error (PyError.keyError "model_config"),
         [Event.openFile path, Event.closeFile path])
    | some raw =>
      match env.decodeUtf8 raw with
      | Except.error e =>
          (Except.error (PyError.unicodeError e),
           [Event.openFile path, Event.readAttr path "model_config", Event.closeFile path])
      | Except.ok s =>
        match env.jsonParse s with
        | Except.error e =>
            (Except.error (PyError.jsonError e),
             [Event.openFile path, Event.readAttr path "model_config", Event.closeFile path])
        | Except.ok parsed =>
          match parsed with
          | Value.vdict top =>
            match dictGet top "config" with
            | none =>
                (Except.error (PyError.keyError "config"),
                 [Event.openFile path, Event.readAttr path "model_config", Event.closeFile path])
            | some cfgVal =>
              -- the with-block ends here: the file is closed before anything below runs
              match cfgVal with
              | Value.vdict c =>
                let model := env.ctor c
                let model2 := env.loadWeightsFn model path byName
                (Except.ok model2,
                 [Event.openFile path, Event.readAttr path "model_config", Event.closeFile path,
                  Event.construct c, Event.loadWeights path byName])
              | _ =>
                  (Except.error (PyError.typeError "cls argument after ** must be a mapping"),
                   [Event.openFile path, Event.readAttr path "model_config", Event.closeFile path])
          | _ =>
              (Except.error (PyError.typeError "indices must not be str"),
               [Event.openFile path, Event.readAttr path "model_config", Event.closeFile path])

/-! ## Basic dictionary lemmas -/

theorem dictGet_nil (k : String) : dictGet [] k = none := rfl

theorem dictGet_cons (p : String × Value) (t : Dict) (k : String) :
    dictGet (p :: t) k = if p.1 = k then some p.2 else dictGet t k := by
  by_cases h : p.1 = k
  · simp [dictGet, List.find?_cons_of_pos, h]
  · simp [dictGet, List.find?_cons_of_neg, h]

theorem dictGet_map_set_ne (t : Dict) (k : String) (v : Value) (k' : String) (h : k' ≠ k) :
    dictGet (t.map (fun p => if p.1 = k then (k, v) else p)) k' = dictGet t k' := by
  induction t with
  | nil => rfl
  | cons p t ih =>
    rw [List.map_cons, dictGet_cons, dictGet_cons]
    by_cases hp : p.1 = k
    · rw [if_pos hp,
          if_neg (show ¬((k, v) : String × Value).1 = k' from fun hk => h hk.symm),
          if_neg (show ¬p.1 = k' from fun hk => h (hp.symm.trans hk).symm), ih]
    · rw [if_neg hp, ih]

theorem dictGet_map_set_mem (t : Dict) (k : String) (v : Value)
    (h : (dictGet t k).isSome) :
    dictGet (t.map (fun p => if p.1 = k then (k, v) else p)) k = some v := by
  induction t with
  | nil => simp [dictGet] at h
  | cons p t ih =>
    rw [dictGet_cons] at h
    rw [List.map_cons, dictGet_cons]
    by_cases hp : p.1 = k
    · rw [if_pos hp, if_pos (show ((k, v) : String × Value).1 = k from rfl)]
    · rw [if_neg hp] at h ⊢
      rw [if_neg hp]
      exact ih h

theorem any_key_eq_isSome (d : Dict) (k : String) :
    (d.any (fun p => p.1 = k)) = (dictGet d k).isSome := by
  induction d with
  | nil => rfl
  | cons p t ih =>
    rw [List.any_cons, dictGet_cons]
    by_cases hp : p.1 = k <;> simp [hp, ih]

theorem dictGet_dictSet (d : Dict) (k : String) (v : Value) (k' : String) :
    dictGet (dictSet d k v) k' = if k' = k then some v else dictGet d k' := by
  unfold dictSet
  by_cases hmem : (dictGet d k).isSome
  · rw [if_pos (by rw [any_key_eq_isSome]; exact hmem)]
    by_cases hk : k' = k
    · rw [if_pos hk, hk, dictGet_map_set_mem d k v hmem]
    · rw [if_neg hk, dictGet_map_set_ne d k v k' hk]
  · rw [if_neg (by rw [any_key_eq_isSome]; simpa using hmem)]
    induction d with
    | nil =>
      by_cases hk : k' = k
      · subst hk; simp [dictGet_cons, dictGet]
      · have hk2 : ¬k = k' := fun hkk => hk hkk.symm
        simp [dictGet_cons, dictGet, hk, hk2]
    | cons p t ih =>
      rw [dictGet_cons] at hmem
      by_cases hp : p.1 = k
      · simp [hp] at hmem
      · rw [if_neg hp] at hmem
        rw [List.cons_append, dictGet_cons, dictGet_cons]
        by_cases hpk' : p.1 = k'
        · rw [if_pos hpk', if_neg (show ¬k' = k from fun hk => hp (hpk'.trans hk)),
              if_pos hpk']
        · rw [if_neg hpk', ih hmem, if_neg hpk']

theorem dictGet_foldl_dictSet (l : List (String × Value)) (init : Dict) (k : String) :
    dictGet (l.foldl (fun c p => dictSet c p.1 p.2) init) k
      = oOr (lookupLast l k) (dictGet init k) := by
  induction l generalizing init with
  | nil => simp [lookupLast, oOr]
  | cons p t ih =>
    rw [List.foldl_cons, ih, lookupLast]
    cases h : lookupLast t k with
    | some v => simp [oOr, h]
    | none =>
      simp only [h, oOr, dictGet_dictSet]
      by_cases hp : p.1 = k
      · simp [hp]
      · rw [if_neg hp, if_neg (fun hk => hp hk.symm)]

theorem lookupLast_eq_none_of_not_mem (l : List (String × Value)) (k : String)
    (h : k ∉ l.map Prod.fst) : lookupLast l k = none := by
  induction l with
  | nil => rfl
  | cons p t ih =>
    rw [List.map_cons, List.mem_cons, not_or] at h
    simp only [lookupLast, ih h.2]
    rw [if_neg (fun hk => h.1 hk.symm)]

theorem dictGet_eq_none_of_not_mem (l : List (String × Value)) (k : String)
    (h : k ∉ l.map Prod.fst) : dictGet l k = none := by
  induction l with
  | nil => rfl
  | cons p t ih =>
    rw [List.map_cons, List.mem_cons, not_or] at h
    rw [dictGet_cons, if_neg (fun hk => h.1 hk.symm), ih h.2]

theorem lookupLast_eq_dictGet_of_nodup (l : List (String × Value))
    (h : (l.map Prod.fst).Nodup) (k : String) : lookupLast l k = dictGet l k := by
  induction l with
  | nil => rfl
  | cons p t ih =>
    rw [List.map_cons, List.nodup_cons] at h
    rw [dictGet_cons]
    simp only [lookupLast, ih h.2]
    by_cases hp : p.1 = k
    · have hnone : dictGet t k = none := dictGet_eq_none_of_not_mem t k (hp ▸ h.1)
      rw [hnone, if_pos hp]
    · cases hd : dictGet t k <;> simp [hp]

theorem lookupLast_cons (p : String × Value) (t : List (String × Value)) (k : String) :
    lookupLast (p :: t) k = oOr (lookupLast t k) (if p.1 = k then some p.2 else none) := by
  cases h : lookupLast t k <;> simp [lookupLast, oOr, h]

theorem lookupLast_zip (keys : List String) (vals : List Value) (hk : keys.Nodup)
    (i : Nat) (hi : i < keys.length) :
    lookupLast (keys.zip vals) keys[i] = vals[i]? := by
  induction keys generalizing vals i with
  | nil => simp at hi
  | cons a kt ih =>
    rw [List.nodup_cons] at hk
    cases vals with
    | nil => simp [List.zip_nil_right, lookupLast]
    | cons v vt =>
      match i with
      | 0 =>
        simp only [List.getElem_cons_zero, List.zip_cons_cons, lookupLast_cons]
        have hnm : a ∉ (kt.zip vt).map Prod.fst := by
          intro hm
          obtain ⟨p, hp, hpa⟩ := List.mem_map.mp hm
          exact hk.1 (hpa ▸ (List.of_mem_zip hp).1)
        rw [lookupLast_eq_none_of_not_mem (kt.zip vt) a hnm]
        simp [oOr]
      | Nat.succ j =>
        simp only [List.getElem_cons_succ, List.zip_cons_cons, lookupLast_cons]
        rw [ih vt hk.2 j (by simpa using hi), List.getElem?_cons_succ]
        cases hvt : vt[j]? with
        | some w => simp [oOr]
        | none =>
          simp only [oOr]
          have hjlt : j < kt.length := by simpa using hi
          rw [if_neg (fun hak => (hak ▸ hk.1) (List.getElem_mem hjlt))]

theorem lookupLast_zip_none (keys : List String) (vals : List Value) (k : String)
    (h : k ∉ keys) : lookupLast (keys.zip vals) k = none := by
  apply lookupLast_eq_none_of_not_mem
  intro hm
  obtain ⟨p, hp, hpa⟩ := List.mem_map.mp hm
  exact h (hpa ▸ (List.of_mem_zip hp).1)

/-- What the wrapper records, pointwise: the last keyword argument for
the key if any, else the positional argument paired with it, else the
default paired with it. -/
theorem dictGet_buildConfig (attrs : List String) (defaults : List Value)
    (args : List Value) (kwargs : List (String × Value)) (k : String) :
    dictGet (buildConfig attrs defaults args kwargs) k
      = oOr (lookupLast kwargs k)
          (oOr (lookupLast ((attrs.drop 1).zip args) k)
            (lookupLast (attrs.reverse.zip defaults.reverse) k)) := by
  unfold buildConfig
  rw [dictGet_foldl_dictSet, dictGet_foldl_dictSet, dictGet_foldl_dictSet]
  cases lookupLast kwargs k <;>
    cases lookupLast ((attrs.drop 1).zip args) k <;>
      cases lookupLast (attrs.reverse.zip defaults.reverse) k <;> rfl

theorem keys_dictSet_of_mem (d : Dict) (k : String) (v : Value)
    (h : (d.any (fun p => p.1 = k)) = true) :
    (dictSet d k v).map Prod.fst = d.map Prod.fst := by
  rw [dictSet, if_pos h, List.map_map]
  refine List.map_congr_left (fun p _ => ?_)
  by_cases hp : p.1 = k
  · simp [Function.comp, hp]
  · simp [Function.comp, hp]

theorem keys_dictSet_of_not_mem (d : Dict) (k : String) (v : Value)
    (h : ¬(d.any (fun p => p.1 = k)) = true) :
    (dictSet d k v).map Prod.fst = d.map Prod.fst ++ [k] := by
  rw [dictSet, if_neg h, List.map_append]
  rfl

theorem nodup_keys_dictSet (d : Dict) (k : String) (v : Value)
    (h : (d.map Prod.fst).Nodup) : ((dictSet d k v).map Prod.fst).Nodup := by
  by_cases hm : (d.any (fun p => p.1 = k)) = true
  · rw [keys_dictSet_of_mem d k v hm]; exact h
  · rw [keys_dictSet_of_not_mem d k v hm]
    have hk : k ∉ d.map Prod.fst := by
      intro hmem
      obtain ⟨p, hp, hpk⟩ := List.mem_map.mp hmem
      exact hm (List.any_eq_true.mpr ⟨p, hp, by simp [hpk]⟩)
    refine List.Nodup.append h (List.nodup_singleton k) ?_
    intro a ha hak
    rw [List.mem_singleton] at hak
    exact hk (hak ▸ ha)

theorem nodup_keys_foldl_dictSet (l : List (String × Value)) (init : Dict)
    (h : (init.map Prod.fst).Nodup) :
    ((l.foldl (fun c p => dictSet c p.1 p.2) init).map Prod.fst).Nodup := by
  induction l generalizing init with
  | nil => exact h
  | cons p t ih => exact ih (dictSet init p.1 p.2) (nodup_keys_dictSet init p.1 p.2 h)

/-- The config dictionary the wrapper records always has pairwise
distinct keys. -/
theorem nodup_keys_buildConfig (attrs : List String) (defaults : List Value)
    (args : List Value) (kwargs : List (String × Value)) :
    ((buildConfig attrs defaults args kwargs).map Prod.fst).Nodup := by
  unfold buildConfig
  exact nodup_keys_foldl_dictSet _ _
    (nodup_keys_foldl_dictSet _ _ (nodup_keys_foldl_dictSet _ _ List.nodup_nil))

/-! ## Python call-binding semantics (spec side for claim C1) -/

/-- The default value that Python's calling convention assigns to the
`i`-th parameter of a signature: defaults align with the trailing
`defaults.length` parameters. -/
def paramDefault (attrs : List String) (defaults : List Value) (i : Nat) : Option Value :=
  if attrs.length - defaults.length ≤ i then
    defaults[i - (attrs.length - defaults.length)]?
  else none

/-- The value the constructor effectively receives for its `i`-th
parameter (`i ≥ 1`; parameter `0` is the instance) under Python's
call-binding rules for a call with positional `args` and keyword
`kwargs`: the `(i-1)`-th positional argument if there is one, otherwise
the keyword argument named like the parameter, otherwise the
parameter's default. -/
def effectiveValue (attrs : List String) (defaults : List Value)
    (args : List Value) (kwargs : List (String × Value)) (i : Nat) : Option Value :=
  match attrs[i]? with
  | none => none
  | some name =>
    if i - 1 < args.length then args[i - 1]?
    else oOr (dictGet kwargs name) (paramDefault attrs defaults i)

theorem lookupLast_defaults_pass (attrs : List String) (defaults : List Value)
    (hattrs : attrs.Nodup) (hdef : defaults.length ≤ attrs.length)
    (i : Nat) (hi : i < attrs.length) :
    lookupLast (attrs.reverse.zip defaults.reverse) attrs[i]
      = paramDefault attrs defaults i := by
  have hrev : attrs.reverse.Nodup := List.nodup_reverse.mpr hattrs
  have hj : attrs.length - 1 - i < attrs.reverse.length := by
    rw [List.length_reverse]; omega
  have hzip := lookupLast_zip attrs.reverse defaults.reverse hrev
    (attrs.length - 1 - i) hj
  have hidx : attrs.reverse[attrs.length - 1 - i] = attrs[i] := by
    rw [List.getElem_reverse]
    congr 1
    omega
  rw [hidx] at hzip
  rw [hzip]
  by_cases hge : attrs.length - defaults.length ≤ i
  · have hjd : attrs.length - 1 - i < defaults.length := by omega
    rw [List.getElem?_reverse hjd, paramDefault, if_pos hge]
    have heq : defaults.length - 1 - (attrs.length - 1 - i)
        = i - (attrs.length - defaults.length) := by omega
    rw [heq]
  · have hout : defaults.reverse.length ≤ attrs.length - 1 - i := by
      rw [List.length_reverse]; omega
    rw [List.getElem?_eq_none hout, paramDefault, if_neg hge]

theorem lookupLast_positional_pass (attrs : List String) (args : List Value)
    (hattrs : attrs.Nodup) (i : Nat) (h1 : 1 ≤ i) (hi : i < attrs.length) :
    lookupLast ((attrs.drop 1).zip args) attrs[i] = args[i - 1]? := by
  have hdrop : (attrs.drop 1).Nodup := hattrs.sublist (List.drop_sublist 1 attrs)
  have hj : i - 1 < (attrs.drop 1).length := by
    rw [List.length_drop]; omega
  have hzip := lookupLast_zip (attrs.drop 1) args hdrop (i - 1) hj
  have hidx : (attrs.drop 1)[i - 1] = attrs[i] := by
    rw [List.getElem_drop]
    congr 1
    omega
  rw [hidx] at hzip
  exact hzip

/-- C1: for every constructor signature with only named parameters and
every valid call mixing positional arguments, keyword arguments and
defaulted parameters, the config dictionary recorded by the wrapped
constructor maps each non-instance parameter (index `i ≥ 1`) to the
value the constructor effectively received: defaults are recorded,
positional arguments override defaults for the parameters they fill
(the instance parameter is skipped), and keyword arguments override
both.  Validity of the call: parameter names are distinct, keyword
names are distinct, defaults are no more numerous than parameters, and
no keyword argument names a positionally-filled parameter (or the
instance parameter). -/
theorem config_records_effective_binding (attrs : List String) (defaults : List Value)
    (args : List Value) (kwargs : List (String × Value))
    (hattrs : attrs.Nodup)
    (hkw : (kwargs.map Prod.fst).Nodup)
    (hdef : defaults.length ≤ attrs.length)
    (hdisj : ∀ p ∈ kwargs, p.1 ∉ attrs.take (args.length + 1))
    (i : Nat) (h1 : 1 ≤ i) (hi : i < attrs.length) :
    dictGet (buildConfig attrs defaults args kwargs) attrs[i]
      = effectiveValue attrs defaults args kwargs i := by
  rw [dictGet_buildConfig,
      lookupLast_positional_pass attrs args hattrs i h1 hi,
      lookupLast_defaults_pass attrs defaults hattrs hdef i hi]
  simp only [effectiveValue, List.getElem?_eq_getElem hi]
  by_cases hpos : i - 1 < args.length
  · rw [if_pos hpos]
    have hmemtake : i < (attrs.take (args.length + 1)).length := by
      rw [List.length_take]; omega
    have htake : (attrs.take (args.length + 1))[i] = attrs[i] := List.getElem_take attrs
    have hmem : attrs[i] ∈ attrs.take (args.length + 1) :=
      htake ▸ List.getElem_mem hmemtake
    have hknone : lookupLast kwargs attrs[i] = none := by
      apply lookupLast_eq_none_of_not_mem
      intro hm
      obtain ⟨p, hp, hpk⟩ := List.mem_map.mp hm
      exact hdisj p hp (hpk ▸ hmem)
    rw [hknone, List.getElem?_eq_getElem hpos]
    simp [oOr]
  · rw [if_neg hpos, List.getElem?_eq_none (show args.length ≤ i - 1 by omega),
        lookupLast_eq_dictGet_of_nodup kwargs hkw]
    cases dictGet kwargs attrs[i] <;> simp [oOr]

/-- Witness for C1 at the signature `(self, a, b, c=9)` called as
`(1, b=2)`: parameter `a` is filled positionally, `b` by keyword, `c`
by its default, and the recorded config agrees with that binding. -/
theorem config_records_effective_binding_witness :
    (dictGet (buildConfig ["self", "a", "b", "c"] [Value.vint 9]
        [Value.vint 1] [("b", Value.vint 2)]) (["self", "a", "b", "c"][3])
      = effectiveValue ["self", "a", "b", "c"] [Value.vint 9]
        [Value.vint 1] [("b", Value.vint 2)] 3)
    ∧ effectiveValue ["self", "a", "b", "c"] [Value.vint 9]
        [Value.vint 1] [("b", Value.vint 2)] 3 = some (Value.vint 9) :=
  ⟨config_records_effective_binding ["self", "a", "b", "c"] [Value.vint 9]
      [Value.vint 1] [("b", Value.vint 2)]
      (by decide) (by decide) (by decide) (by decide) 3 (by decide) (by decide),
   rfl⟩

theorem oOr_none_left (b : Option Value) : oOr none b = b := rfl

theorem oOr_some_left (v : Value) (b : Option Value) : oOr (some v) b = some v := rfl

/-- Rebuilding a config from itself: calling the wrapped constructor
with a previously recorded config as the keyword arguments records a
config with the same key-value content. -/
theorem dictGet_buildConfig_rebuild (attrs : List String) (defaults : List Value)
    (args : List Value) (kwargs : List (String × Value)) (k : String) :
    dictGet (buildConfig attrs defaults [] (buildConfig attrs defaults args kwargs)) k
      = dictGet (buildConfig attrs defaults args kwargs) k := by
  have hnodup := nodup_keys_buildConfig attrs defaults args kwargs
  have hform := dictGet_buildConfig attrs defaults args kwargs k
  rw [dictGet_buildConfig attrs defaults [] (buildConfig attrs defaults args kwargs) k,
      List.zip_nil_right,
      lookupLast_eq_dictGet_of_nodup (buildConfig attrs defaults args kwargs) hnodup k]
  cases hck : dictGet (buildConfig attrs defaults args kwargs) k with
  | some v => rw [oOr_some_left]
  | none =>
    rw [hck] at hform
    rw [oOr_none_left]
    show oOr (lookupLast [] k) _ = none
    rw [show lookupLast [] k = none from rfl, oOr_none_left]
    cases h1 : lookupLast kwargs k with
    | some v => rw [h1] at hform; simp [oOr] at hform
    | none =>
      rw [h1, oOr_none_left] at hform
      cases h2 : lookupLast ((attrs.drop 1).zip args) k with
      | some v => rw [h2] at hform; simp [oOr] at hform
      | none =>
        rw [h2, oOr_none_left] at hform
        exact hform.symm

/-- C2: round-trip reconstruction.  For every decorated constructor
(wrapped by `store_config_args`) whose original body does not touch the
`config` attribute, and every instance `m` built through it, invoking
`from_config` with `m`'s recorded config constructs a new instance of
the same class whose recorded config has the same key-value content as
`m`'s. -/
theorem from_config_roundtrip (spec : ArgSpec) (func : InitFunc)
    (hfunc : ∀ s a kw, dictGet (func s a kw).1 "config" = dictGet s "config")
    (self : Attrs) (args : List Value) (kwargs : List (String × Value))
    (x : Option Value) :
    ∃ cm cn,
      get_config (wrapper spec func self args kwargs).1 = some (Value.vdict cm)
      ∧ get_config (from_config (newDecorated spec func) cm x) = some (Value.vdict cn)
      ∧ ∀ k, dictGet cn k = dictGet cm k := by
  refine ⟨buildConfig spec.attrs spec.defaults args kwargs,
      buildConfig spec.attrs spec.defaults []
        (buildConfig spec.attrs spec.defaults args kwargs), ?_, ?_, ?_⟩
  · unfold get_config wrapper
    rw [hfunc, dictGet_dictSet]
    simp
  · unfold get_config from_config newDecorated wrapper
    rw [hfunc, dictGet_dictSet]
    simp
  · intro k
    exact dictGet_buildConfig_rebuild spec.attrs spec.defaults args kwargs k

/-- Witness for C2 at the signature `(self, a, b=5)` called as `(7)`,
with a constructor body that sets no attribute. -/
theorem from_config_roundtrip_witness :
    ∃ cm cn,
      get_config (wrapper ⟨["self", "a", "b"], none, none, [Value.vint 5]⟩
          (fun s _ _ => (s, Value.vnone)) [] [Value.vint 7] []).1 = some (Value.vdict cm)
      ∧ get_config (from_config
            (newDecorated ⟨["self", "a", "b"], none, none, [Value.vint 5]⟩
              (fun s _ _ => (s, Value.vnone))) cm none) = some (Value.vdict cn)
      ∧ ∀ k, dictGet cn k = dictGet cm k :=
  from_config_roundtrip ⟨["self", "a", "b"], none, none, [Value.vint 5]⟩
    (fun s _ _ => (s, Value.vnone)) (fun _ _ _ => rfl) [] [Value.vint 7] [] none

/-- C6: `get_config` returns the stored config verbatim: on an instance
constructed through a decorated constructor whose original body leaves
the `config` attribute alone, it returns exactly the dictionary the
argument recorder stored at construction time. -/
theorem get_config_verbatim (spec : ArgSpec) (func : InitFunc)
    (hfunc : ∀ s a kw, dictGet (func s a kw).1 "config" = dictGet s "config")
    (self : Attrs) (args : List Value) (kwargs : List (String × Value)) :
    get_config (wrapper spec func self args kwargs).1
      = some (Value.vdict (buildConfig spec.attrs spec.defaults args kwargs)) := by
  unfold get_config wrapper
  rw [hfunc, dictGet_dictSet]
  simp

/-- Witness for C6 at the signature `(self, n)` called as `(3)`. -/
theorem get_config_verbatim_witness :
    get_config (wrapper ⟨["self", "n"], none, none, []⟩
        (fun s _ _ => (s, Value.vnone)) [] [Value.vint 3] []).1
      = some (Value.vdict (buildConfig ["self", "n"] [] [Value.vint 3] [])) :=
  get_config_verbatim ⟨["self", "n"], none, none, []⟩ (fun s _ _ => (s, Value.vnone))
    (fun _ _ _ => rfl) [] [Value.vint 3] []

/-- C8: the wrapped constructor is externally transparent: it invokes
the original constructor with the original positional and keyword
arguments unchanged — on an instance that differs from the original
only at its `config` attribute — and returns the original
constructor's return value unchanged. -/
theorem wrapper_transparent (spec : ArgSpec) (func : InitFunc)
    (self : Attrs) (args : List Value) (kwargs : List (String × Value)) :
    ∃ self1,
      wrapper spec func self args kwargs = func self1 args kwargs
      ∧ ∀ k, dictGet self1 k =
          if k = "config"
          then some (Value.vdict (buildConfig spec.attrs spec.defaults args kwargs))
          else dictGet self k := by
  refine ⟨dictSet self "config"
      (Value.vdict (buildConfig spec.attrs spec.defaults args kwargs)), rfl, ?_⟩
  intro k
  exact dictGet_dictSet self "config" _ k

/-- C4: the `LoadableModel` base constructor raises the configuration
RuntimeError when the instance has no `config` attribute — whatever the
keras base constructor would do, i.e. before it runs — and calls the
keras base constructor with the original arguments when `config` is
present. -/
theorem LoadableModel_init_guard
    (superInit : Attrs → List Value → List (String × Value) → Except String Attrs)
    (self : Attrs) (args : List Value) (kwargs : List (String × Value)) :
    (dictGet self "config" = none →
      LoadableModel_init superInit self args kwargs = Except.error configErrorMsg)
    ∧ (∀ v, dictGet self "config" = some v →
      LoadableModel_init superInit self args kwargs = superInit self args kwargs) := by
  constructor
  · intro h
    unfold LoadableModel_init
    rw [h]
    simp
  · intro v h
    unfold LoadableModel_init
    rw [h]
    simp

/-- Witness for C4: an instance with no attributes fails with the
configuration error; an instance with a `config` attribute runs the
keras base constructor. -/
theorem LoadableModel_init_guard_witness :
    (dictGet ([] : Attrs) "config" = none
      ∧ LoadableModel_init (fun s _ _ => Except.ok s) [] [] []
          = Except.error configErrorMsg)
    ∧ (dictGet [("config", Value.vdict [])] "config" = some (Value.vdict [])
      ∧ LoadableModel_init (fun s _ _ => Except.ok s) [("config", Value.vdict [])] [] []
          = Except.ok [("config", Value.vdict [])]) :=
  ⟨⟨rfl, (LoadableModel_init_guard (fun s _ _ => Except.ok s) [] [] []).1 rfl⟩,
   ⟨rfl, (LoadableModel_init_guard (fun s _ _ => Except.ok s)
      [("config", Value.vdict [])] [] []).2 (Value.vdict []) rfl⟩⟩

/-- C9: when the constructor's signature cannot be introspected,
`inspect.getargspec` raises while `store_config_args` runs, i.e. at
decoration time: the error propagates and no wrapper is produced. -/
theorem store_config_args_fails_fast (e : String) (func : InitFunc) :
    store_config_args (Except.error e) func = Except.error e := rfl

/-- Counterexample to C10 as stated: for the degenerate but legal
signature `(self=0)` — every parameter defaulted — the reversed
defaults pass of the wrapper reaches the instance parameter, so the
recorded config does contain the first parameter name as a key. -/
theorem config_contains_instance_param_counterexample :
    dictGet (buildConfig ["self"] [Value.vint 0] [] []) "self"
      = some (Value.vint 0) := rfl

/-- C10 (amended): provided the instance parameter itself carries no
default (strictly fewer defaults than parameters) and no keyword
argument uses its name (Python's binding of the wrapper's own first
parameter guarantees this for the name `self`), the recorded config
never contains the first parameter's name: the defaults pass only
reaches trailing defaulted parameters and the positional pass starts
from the second parameter. -/
theorem config_never_contains_instance_param (attrs : List String)
    (defaults : List Value) (args : List Value) (kwargs : List (String × Value))
    (s : String) (hhead : attrs.head? = some s) (hattrs : attrs.Nodup)
    (hdef : defaults.length < attrs.length)
    (hkw : ∀ p ∈ kwargs, p.1 ≠ s) :
    dictGet (buildConfig attrs defaults args kwargs) s = none := by
  obtain ⟨a, t, rfl⟩ : ∃ a t, attrs = a :: t := by
    cases attrs with
    | nil => simp at hhead
    | cons a t => exact ⟨a, t, rfl⟩
  have ha : a = s := by simpa using hhead
  subst ha
  rw [dictGet_buildConfig]
  have h1 : lookupLast kwargs a = none := by
    apply lookupLast_eq_none_of_not_mem
    intro hm
    obtain ⟨p, hp, hpk⟩ := List.mem_map.mp hm
    exact hkw p hp hpk
  have h2 : lookupLast (((a :: t).drop 1).zip args) a = none := by
    rw [show (a :: t).drop 1 = t from rfl]
    exact lookupLast_zip_none t args a (List.nodup_cons.mp hattrs).1
  have h3 : lookupLast ((a :: t).reverse.zip defaults.reverse) a = none := by
    have hlen : t.length < (a :: t).reverse.length := by
      rw [List.length_reverse, List.length_cons]
      omega
    have hzip := lookupLast_zip (a :: t).reverse defaults.reverse
      (List.nodup_reverse.mpr hattrs) t.length hlen
    have hidx : (a :: t).reverse[t.length] = a := by
      rw [List.getElem_reverse]
      simp
    rw [hidx] at hzip
    rw [hzip]
    apply List.getElem?_eq_none
    rw [List.length_reverse]
    rw [List.length_cons] at hdef
    omega
  rw [h1, h2, h3, oOr_none_left, oOr_none_left]

/-- Witness for the amended C10 at the signature `(self, x=1)` called
with no arguments. -/
theorem config_never_contains_instance_param_witness :
    dictGet (buildConfig ["self", "x"] [Value.vint 1] [] []) "self" = none :=
  config_never_contains_instance_param ["self", "x"] [Value.vint 1] [] [] "self"
    rfl (by decide) (by decide) (by decide)

/-- Helper: the full evaluation of `load` on the success path. -/
theorem load_eq_on_success (env : LoadEnv) (path : String) (byName : Bool)
    (f : H5File) (raw s : String) (top c : List (String × Value))
    (hfs : env.fs path = some f)
    (hattr : attrGet f.fileAttrs "model_config" = some raw)
    (hdec : env.decodeUtf8 raw = Except.ok s)
    (hjson : env.jsonParse s = Except.ok (Value.vdict top))
    (hcfg : dictGet top "config" = some (Value.vdict c)) :
    load env path byName
      = (Except.ok (env.loadWeightsFn (env.ctor c) path byName),
         [Event.openFile path, Event.readAttr path "model_config", Event.closeFile path,
          Event.construct c, Event.loadWeights path byName]) := by
  simp only [load, hfs, hattr, hdec, hjson, hcfg]

/-- C3: on the success path, `load` performs exactly these steps in
this order: open the file, read its `model_config` attribute (then
decode, parse and extract the nested config, all pure), close the file,
construct a new instance by calling the subclass constructor with the
extracted config as keyword arguments, then call the framework
weight-loading routine with the same path and the unchanged `by_name`
flag; and it returns the resulting instance.  In particular the close
event precedes the construct and weight-load events. -/
theorem load_success_steps (env : LoadEnv) (path : String) (byName : Bool)
    (f : H5File) (raw s : String) (top c : List (String × Value))
    (hfs : env.fs path = some f)
    (hattr : attrGet f.fileAttrs "model_config" = some raw)
    (hdec : env.decodeUtf8 raw = Except.ok s)
    (hjson : env.jsonParse s = Except.ok (Value.vdict top))
    (hcfg : dictGet top "config" = some (Value.vdict c)) :
    load env path byName
      = (Except.ok (env.loadWeightsFn (env.ctor c) path byName),
         [Event.openFile path, Event.readAttr path "model_config", Event.closeFile path,
          Event.construct c, Event.loadWeights path byName]) :=
  load_eq_on_success env path byName f raw s top c hfs hattr hdec hjson hcfg

/-- A small concrete environment exercising `load`: one well-formed
container, one container missing the `model_config` attribute, one
container whose config blob is not valid JSON. -/
def testEnv : LoadEnv where
  fs := fun p =>
    if p = "model.h5" then some ⟨[("model_config", "blob")]⟩
    else if p = "empty.h5" then some ⟨[]⟩
    else if p = "bad.h5" then some ⟨[("model_config", "oops")]⟩
    else none
  decodeUtf8 := fun b => Except.ok b
  jsonParse := fun s =>
    if s = "blob"
    then Except.ok (Value.vdict [("config", Value.vdict [("filters", Value.vint 32)])])
    else Except.error "Expecting value"
  ctor := fun kwargs => [("config", Value.vdict kwargs)]
  loadWeightsFn := fun m _ _ => m

/-- Witness for C3 on the concrete environment. -/
theorem load_success_steps_witness :
    load testEnv "model.h5" false
      = (Except.ok [("config", Value.vdict [("filters", Value.vint 32)])],
         [Event.openFile "model.h5", Event.readAttr "model.h5" "model_config",
          Event.closeFile "model.h5", Event.construct [("filters", Value.vint 32)],
          Event.loadWeights "model.h5" false]) :=
  load_success_steps testEnv "model.h5" false ⟨[("model_config", "blob")]⟩ "blob" "blob"
    [("config", Value.vdict [("filters", Value.vint 32)])] [("filters", Value.vint 32)]
    rfl rfl rfl rfl rfl

/-- C5: `from_config` returns exactly the subclass constructor applied
to the config as keyword arguments, independently of the
`custom_objects` argument; and the construction step inside `load`
builds the same instance `from_config` would build from the extracted
config. -/
theorem from_config_refines (ctor : List (String × Value) → Attrs)
    (config : List (String × Value)) (x y : Option Value)
    (env : LoadEnv) (path : String) (byName : Bool)
    (f : H5File) (raw s : String) (top c : List (String × Value))
    (hfs : env.fs path = some f)
    (hattr : attrGet f.fileAttrs "model_config" = some raw)
    (hdec : env.decodeUtf8 raw = Except.ok s)
    (hjson : env.jsonParse s = Except.ok (Value.vdict top))
    (hcfg : dictGet top "config" = some (Value.vdict c)) :
    from_config ctor config x = ctor config
    ∧ from_config ctor config x = from_config ctor config y
    ∧ (load env path byName).1
        = Except.ok (env.loadWeightsFn (from_config env.ctor c x) path byName) := by
  refine ⟨rfl, rfl, ?_⟩
  rw [load_eq_on_success env path byName f raw s top c hfs hattr hdec hjson hcfg]
  rfl

/-- Witness for C5 on the concrete environment. -/
theorem from_config_refines_witness :
    from_config testEnv.ctor [("filters", Value.vint 32)] none
        = testEnv.ctor [("filters", Value.vint 32)]
    ∧ from_config testEnv.ctor [("filters", Value.vint 32)] none
        = from_config testEnv.ctor [("filters", Value.vint 32)] (some Value.vnone)
    ∧ (load testEnv "model.h5" true).1
        = Except.ok (testEnv.loadWeightsFn
            (from_config testEnv.ctor [("filters", Value.vint 32)] none) "model.h5" true) :=
  from_config_refines testEnv.ctor [("filters", Value.vint 32)] none (some Value.vnone)
    testEnv "model.h5" true ⟨[("model_config", "blob")]⟩ "blob" "blob"
    [("config", Value.vdict [("filters", Value.vint 32)])] [("filters", Value.vint 32)]
    rfl rfl rfl rfl rfl

/-- C7: `load` propagates every failure to the caller and returns no
instance on failure: a missing file surfaces the I/O error from the
file layer; a readable container without the `model_config` attribute
surfaces a lookup error; an invalid JSON blob surfaces the parse
error.  In each case the result is an exception, not an instance. -/
theorem load_propagates_errors (env : LoadEnv) (path : String) (byName : Bool) :
    (env.fs path = none →
      (load env path byName).1 = Except.error (PyError.ioError path))
    ∧ (∀ f, env.fs path = some f →
        attrGet f.fileAttrs "model_config" = none →
        (load env path byName).1 = Except.error (PyError.keyError "model_config"))
    ∧ (∀ f raw s e, env.fs path = some f →
        attrGet f.fileAttrs "model_config" = some raw →
        env.decodeUtf8 raw = Except.ok s →
        env.jsonParse s = Except.error e →
        (load env path byName).1 = Except.error (PyError.jsonError e)) := by
  refine ⟨?_, ?_, ?_⟩
  · intro h
    simp only [load, h]
  · intro f hfs hattr
    simp only [load, hfs, hattr]
  · intro f raw s e hfs hattr hdec hjson
    simp only [load, hfs, hattr, hdec, hjson]

/-- Witness for C7 on the concrete environment: a missing path, a
container without `model_config`, and a container with an unparsable
blob. -/
theorem load_propagates_errors_witness :
    (load testEnv "missing.h5" false).1 = Except.error (PyError.ioError "missing.h5")
    ∧ (load testEnv "empty.h5" false).1 = Except.error (PyError.keyError "model_config")
    ∧ (load testEnv "bad.h5" true).1 = Except.error (PyError.jsonError "Expecting value") :=
  ⟨(load_propagates_errors testEnv "missing.h5" false).1 rfl,
   (load_propagates_errors testEnv "empty.h5" false).2.1 ⟨[]⟩ rfl rfl,
   (load_propagates_errors testEnv "bad.h5" true).2.2 ⟨[("model_config", "oops")]⟩
     "oops" "oops" "Expecting value" rfl rfl rfl rfl⟩
